import Mathlib

/-!
Verification of the JSON-RPC transport and request-lifecycle layer of
mcp-gopls, a bridge exposing gopls code-intelligence operations as MCP
tools.  The definitions below are a shallow embedding of
`pkg/lsp/protocol/transport.go` (message framing over a byte stream) and
`pkg/lsp/client/gopls.go` (request/response correlation, identifier
allocation, the initialization handshake, hover decoding, diagnostics,
close).  Bytes are modelled as `Char` values consumed from a `List Char`
stream; Go `int64` arithmetic is modelled on `Int` with an explicit wrap
at `2 ^ 64`.
-/

namespace McpGopls

/-! ## Framed channel (pkg/lsp/protocol/transport.go) -/

/-- The space predicate used by Go `strings.TrimSpace` restricted to the
ASCII range, which is the only range header bytes produced or consumed by
the transport fall in. -/
def isSpace (c : Char) : Bool :=
  c = ' ' || c = '\t' || c = '\n' || c = '\x0b' || c = '\x0c' || c = '\r'

/-- Decimal digit character, as produced by `fmt.Fprintf` with verb `%d`. -/
def digitChar (d : Nat) : Char :=
  match d with
  | 0 => '0' | 1 => '1' | 2 => '2' | 3 => '3' | 4 => '4'
  | 5 => '5' | 6 => '6' | 7 => '7' | 8 => '8' | _ => '9'

/-- Fuel-indexed decimal printer: digits of `n`, most significant first.
The fuel is always at least the number of digits when called through
`natRepr`. -/
def natReprAux : Nat → Nat → List Char
  | 0, _ => []
  | fuel + 1, n =>
    if n < 10 then [digitChar n]
    else natReprAux fuel (n / 10) ++ [digitChar (n % 10)]

/-- Decimal representation of a natural number, as written by
`fmt.Fprintf(w, "Content-Length: %d\r\n\r\n", len(data))`. -/
def natRepr (n : Nat) : List Char :=
  natReprAux (n + 1) n

/-- Numeric value of a digit string, most significant digit first. -/
def digitsVal (l : List Char) : Nat :=
  l.foldl (fun a c => 10 * a + (c.toNat - 48)) 0

/-- The all-digits fast path of Go `strconv.Atoi`: a nonempty run of
ASCII digits. -/
def atoiDigits (l : List Char) : Option Nat :=
  if l = [] then none
  else if l.all (fun c => c.isDigit) then some (digitsVal l) else none

/-- Go `strconv.Atoi`: an optional sign followed by a nonempty digit
string (overflow is irrelevant at the lengths a Go slice can have). -/
def atoi (l : List Char) : Option Int :=
  match l with
  | [] => none
  | c :: rest =>
    if c = '-' then (atoiDigits rest).map (fun n => -(n : Int))
    else if c = '+' then (atoiDigits rest).map (fun n => (n : Int))
    else (atoiDigits (c :: rest)).map (fun n => (n : Int))

/-- Go `strings.TrimSpace` on the byte level: drop spaces from both
ends. -/
def trimSpace (l : List Char) : List Char :=
  ((l.dropWhile isSpace).reverse.dropWhile isSpace).reverse

/-- Transport state relevant to framing: the persistent `contentLen`
field and the `closed` flag of the `Transport` struct.  `contentLen` is
deliberately mutable across calls in the source, which is what lets a
stale value leak into a later read. -/
structure Transport where
  contentLen : Int
  closed : Bool
deriving DecidableEq, Repr

/-- The header tag recognized by `readHeader`. -/
def clTag : List Char := "Content-Length:".data

/-- The header-reading loop of `Transport.readHeader`, with
`bufio.Reader.ReadString('\n')` inlined: `acc` is the partial line read
so far, `cl` the current value of the `contentLen` field.  Reading a
line without a terminating newline fails (EOF); a blank line ends the
loop, failing if `contentLen` is still `0`; a `Content-Length:` line
updates `contentLen` via `strconv.Atoi` (failing if unparsable); any
other header line is skipped. -/
def rhAux (stream : List Char) (acc : List Char) (cl : Int) :
    Except String (Int × List Char) :=
  match stream with
  | [] => .error "error reading header line"
  | c :: rest =>
    if c = '\n' then
      let line := trimSpace (acc ++ [c])
      if line = [] then
        if cl = 0 then .error "missing Content-Length header"
        else .ok (cl, rest)
      else if clTag.isPrefixOf line then
        match atoi (trimSpace (line.drop 15)) with
        | none => .error "invalid Content-Length"
        | some n => rhAux rest [] n
      else rhAux rest [] cl
    else rhAux rest (acc ++ [c]) cl

/-- `Transport.readHeader`: run the header loop from an empty line buffer
starting from the current `contentLen`. -/
def readHeader (stream : List Char) (cl : Int) :
    Except String (Int × List Char) :=
  rhAux stream [] cl

/-- `Transport.readContent`: read exactly `n` bytes
(`io.ReadFull`), failing when the stream ends first. -/
def readContent (n : Nat) (stream : List Char) :
    Except String (List Char × List Char) :=
  if n ≤ stream.length then .ok (stream.take n, stream.drop n)
  else .error "error reading content"

/-- The framing half of `Transport.ReceiveMessage`: the closed-transport
guard, then `readHeader` followed by `readContent`, returning the payload
bytes, the updated transport state and the unread remainder of the
stream. -/
def receiveFrame (t : Transport) (stream : List Char) :
    Except String (List Char × Transport × List Char) :=
  if t.closed then .error "transport closed"
  else
    match readHeader stream t.contentLen with
    | .error e => .error e
    | .ok (cl, rest) =>
      match readContent cl.toNat rest with
      | .error e => .error e
      | .ok (content, rest') => .ok (content, { t with contentLen := cl }, rest')

/-- `Transport.SendMessage` at the byte level: the exact bytes written
for a payload, namely `Content-Length: <n>\r\n\r\n` followed by the
payload verbatim. -/
def sendFrame (data : List Char) : List Char :=
  "Content-Length: ".data ++ natRepr data.length ++ "\r\n\r\n".data ++ data

/-! ### Facts about the decimal printer and parser -/

theorem digitChar_facts : ∀ d, d < 10 →
    (digitChar d).isDigit = true ∧ (digitChar d).toNat = 48 + d ∧
    isSpace (digitChar d) = false ∧ digitChar d ≠ '\n' ∧
    digitChar d ≠ '-' ∧ digitChar d ≠ '+' := by
  decide

theorem digitsVal_append_singleton (l : List Char) (c : Char) :
    digitsVal (l ++ [c]) = 10 * digitsVal l + (c.toNat - 48) := by
  simp [digitsVal, List.foldl_append]

theorem natReprAux_spec : ∀ fuel n, n < 10 ^ (fuel + 1) →
    natReprAux (fuel + 1) n ≠ [] ∧
    (∀ c ∈ natReprAux (fuel + 1) n, ∃ d, d < 10 ∧ c = digitChar d) ∧
    digitsVal (natReprAux (fuel + 1) n) = n := by
  intro fuel
  induction fuel with
  | zero =>
    intro n hn
    have h10 : n < 10 := by simpa using hn
    refine ⟨by simp [natReprAux, h10], ?_, ?_⟩
    · intro c hc
      simp [natReprAux, h10] at hc
      exact ⟨n, h10, hc⟩
    · have := (digitChar_facts n h10).2.1
      simp [natReprAux, h10, digitsVal, this]
  | succ fuel ih =>
    intro n hn
    by_cases h10 : n < 10
    · refine ⟨by simp [natReprAux, h10], ?_, ?_⟩
      · intro c hc
        simp [natReprAux, h10] at hc
        exact ⟨n, h10, hc⟩
      · have := (digitChar_facts n h10).2.1
        simp [natReprAux, h10, digitsVal, this]
    · have hdiv : n / 10 < 10 ^ (fuel + 1) := by
        have : n < 10 ^ (fuel + 1) * 10 := by
          calc n < 10 ^ (fuel + 1 + 1) := hn
          _ = 10 ^ (fuel + 1) * 10 := by ring
        exact Nat.div_lt_of_lt_mul (by omega)
      obtain ⟨hne, hmem, hval⟩ := ih (n / 10) hdiv
      have hmod : n % 10 < 10 := Nat.mod_lt _ (by omega)
      have hstep : natReprAux (fuel + 1 + 1) n =
          natReprAux (fuel + 1) (n / 10) ++ [digitChar (n % 10)] := by
        simp [natReprAux, h10]
      refine ⟨?_, ?_, ?_⟩
      · simp [hstep]
      · intro c hc
        rw [hstep] at hc
        rcases List.mem_append.mp hc with h | h
        · exact hmem c h
        · simp at h
          exact ⟨n % 10, hmod, h⟩
      · rw [hstep, digitsVal_append_singleton, hval,
          (digitChar_facts _ hmod).2.1]
        omega

theorem natRepr_spec (n : Nat) :
    natRepr n ≠ [] ∧
    (∀ c ∈ natRepr n, ∃ d, d < 10 ∧ c = digitChar d) ∧
    digitsVal (natRepr n) = n := by
  have hb : n < 10 ^ (n + 1) := by
    calc n < 10 ^ n := Nat.lt_pow_self (by omega) n
    _ ≤ 10 ^ (n + 1) := Nat.pow_le_pow_right (by omega) (by omega)
  exact natReprAux_spec n n hb

theorem atoi_natRepr (n : Nat) : atoi (natRepr n) = some (n : Int) := by
  obtain ⟨hne, hmem, hval⟩ := natRepr_spec n
  obtain ⟨c, cs, hcs⟩ : ∃ c cs, natRepr n = c :: cs := by
    cases h : natRepr n with
    | nil => exact absurd h hne
    | cons c cs => exact ⟨c, cs, rfl⟩
  obtain ⟨d, hd, hcd⟩ := hmem c (by rw [hcs]; exact List.mem_cons_self _ _)
  have hdash : c ≠ '-' := hcd ▸ (digitChar_facts d hd).2.2.2.2.1
  have hplus : c ≠ '+' := hcd ▸ (digitChar_facts d hd).2.2.2.2.2
  have hdigits : (natRepr n).all (fun c => c.isDigit) = true := by
    rw [List.all_eq_true]
    intro x hx
    obtain ⟨d', hd', hxd⟩ := hmem x hx
    exact hxd ▸ (digitChar_facts d' hd').1
  have hAD : atoiDigits (natRepr n) = some n := by
    rw [atoiDigits, if_neg hne, if_pos hdigits, hval]
  rw [hcs] at hAD ⊢
  rw [atoi, if_neg hdash, if_neg hplus, hAD]
  rfl

/-! ### Facts about trimming and the header loop -/

theorem dropWhile_space_append (pre l : List Char)
    (h : ∀ c ∈ pre, isSpace c = true) :
    (pre ++ l).dropWhile isSpace = l.dropWhile isSpace := by
  induction pre with
  | nil => simp
  | cons c cs ih =>
    have hc := h c (List.mem_cons_self _ _)
    simp only [List.cons_append, List.dropWhile_cons, hc, if_true]
    exact ih (fun x hx => h x (List.mem_cons_of_mem _ hx))

theorem dropWhile_nonspace_head (c : Char) (l : List Char)
    (h : isSpace c = false) :
    (c :: l).dropWhile isSpace = c :: l := by
  simp [List.dropWhile_cons, h]

theorem trimSpace_wrap (l post : List Char)
    (hpost : ∀ c ∈ post, isSpace c = true)
    (hhead : ∃ c cs, l = c :: cs ∧ isSpace c = false)
    (hlast : ∃ c cs, l.reverse = c :: cs ∧ isSpace c = false) :
    trimSpace (l ++ post) = l := by
  obtain ⟨c, cs, hl, hc⟩ := hhead
  obtain ⟨c', cs', hlr, hc'⟩ := hlast
  have h1 : (l ++ post).dropWhile isSpace = l ++ post := by
    rw [hl, List.cons_append]
    exact dropWhile_nonspace_head _ _ hc
  have h2 : (l ++ post).reverse.dropWhile isSpace = l.reverse := by
    rw [List.reverse_append,
      dropWhile_space_append _ _ (fun x hx => hpost x (List.mem_reverse.mp hx)),
      hlr]
    exact dropWhile_nonspace_head _ _ hc'
  rw [trimSpace, h1, h2, List.reverse_reverse]

theorem trimSpace_nonspace (l : List Char)
    (h : ∀ c ∈ l, isSpace c = false) : trimSpace l = l := by
  cases hl : l with
  | nil => rfl
  | cons c cs =>
    rw [← hl]
    have : trimSpace (l ++ []) = l := by
      refine trimSpace_wrap l [] (by simp) ?_ ?_
      · exact ⟨c, cs, hl, h c (hl ▸ List.mem_cons_self _ _)⟩
      · cases hr : l.reverse with
        | nil => simp at hr; rw [hr] at hl; cases hl
        | cons c' cs' =>
          refine ⟨c', cs', rfl, h c' ?_⟩
          have : c' ∈ l.reverse := by rw [hr]; exact List.mem_cons_self _ _
          exact List.mem_reverse.mp this
    simpa using this

theorem trimSpace_space_cons (l : List Char)
    (h : ∀ c ∈ l, isSpace c = false) : trimSpace (' ' :: l) = l := by
  have h1 : (' ' :: l).dropWhile isSpace = l.dropWhile isSpace := by
    simp [List.dropWhile_cons, isSpace]
  have h2 : l.dropWhile isSpace = l := by
    cases hl : l with
    | nil => rfl
    | cons c cs => exact dropWhile_nonspace_head c cs (h c (hl ▸ List.mem_cons_self _ _))
  have h3 := trimSpace_nonspace l h
  rw [trimSpace] at h3 ⊢
  rw [h1, h2]
  rw [h2] at h3
  exact h3

theorem isPrefixOf_append_self (l x : List Char) :
    l.isPrefixOf (l ++ x) = true := by
  induction l with
  | nil => simp [List.isPrefixOf]
  | cons c cs ih => simp [List.isPrefixOf, ih]

theorem rhAux_no_newline (l : List Char) (h : ∀ c ∈ l, c ≠ '\n') :
    ∀ s acc cl, rhAux (l ++ s) acc cl = rhAux s (acc ++ l) cl := by
  induction l with
  | nil => intro s acc cl; simp
  | cons c cs ih =>
    intro s acc cl
    have hc : c ≠ '\n' := h c (List.mem_cons_self _ _)
    rw [List.cons_append, rhAux, if_neg hc]
    rw [ih (fun x hx => h x (List.mem_cons_of_mem _ hx)) s (acc ++ [c]) cl]
    simp

theorem rhAux_newline (xs acc : List Char) (cl : Int) :
    rhAux ('\n' :: xs) acc cl =
      if trimSpace (acc ++ ['\n']) = [] then
        (if cl = 0 then .error "missing Content-Length header"
         else .ok (cl, xs))
      else if clTag.isPrefixOf (trimSpace (acc ++ ['\n'])) then
        (match atoi (trimSpace ((trimSpace (acc ++ ['\n'])).drop 15)) with
         | none => .error "invalid Content-Length"
         | some n => rhAux xs [] n)
      else rhAux xs [] cl := rfl

/-- Parsing the header written by `SendMessage` for a payload of `n`
bytes yields `n`, independently of the stale `contentLen`, provided
`n ≠ 0`. -/
theorem readHeader_of_frame (n : Nat) (hn : n ≠ 0) (body : List Char)
    (cl0 : Int) :
    readHeader ("Content-Length: ".data ++ natRepr n ++ "\r\n\r\n".data ++ body)
      cl0 = .ok ((n : Int), body) := by
  obtain ⟨hne, hmem, _⟩ := natRepr_spec n
  have hCL : ∀ c ∈ "Content-Length: ".data, c ≠ '\n' ∧ isSpace c = false ∨
      c = ' ' := by decide
  have hd1 : ∀ c ∈ natRepr n, isSpace c = false := by
    intro c hc
    obtain ⟨d, hd, rfl⟩ := hmem c hc
    exact (digitChar_facts d hd).2.2.1
  have hd2 : ∀ c ∈ natRepr n, c ≠ '\n' := by
    intro c hc
    obtain ⟨d, hd, rfl⟩ := hmem c hc
    exact (digitChar_facts d hd).2.2.2.1
  have hP : "Content-Length: ".data ++ natRepr n =
      clTag ++ (' ' :: natRepr n) := by
    rw [show "Content-Length: ".data = clTag ++ [' '] from rfl]
    simp
  have hPhead : ∃ c cs,
      "Content-Length: ".data ++ natRepr n = c :: cs ∧ isSpace c = false := by
    refine ⟨'C', "ontent-Length: ".data ++ natRepr n, ?_, by decide⟩
    rfl
  have hPlast : ∃ c cs,
      ("Content-Length: ".data ++ natRepr n).reverse = c :: cs ∧
        isSpace c = false := by
    rw [List.reverse_append]
    cases hr : (natRepr n).reverse with
    | nil => exact absurd (by simpa using congrArg List.reverse hr) hne
    | cons c cs =>
      refine ⟨c, cs ++ "Content-Length: ".data.reverse, by simp, ?_⟩
      exact hd1 c (List.mem_reverse.mp (hr ▸ List.mem_cons_self _ _))
  have hline : trimSpace ((("Content-Length: ".data ++ natRepr n) ++ ['\r']) ++
      ['\n']) = "Content-Length: ".data ++ natRepr n := by
    rw [List.append_assoc]
    exact trimSpace_wrap _ _ (by decide) hPhead hPlast
  have hPne : "Content-Length: ".data ++ natRepr n ≠ [] := by
    obtain ⟨c, cs, hcs, _⟩ := hPhead
    simp [hcs]
  have hsplit : "Content-Length: ".data ++ natRepr n ++ "\r\n\r\n".data ++ body
      = (("Content-Length: ".data ++ natRepr n) ++ ['\r']) ++
        '\n' :: ('\r' :: ('\n' :: body)) := by
    rw [show "\r\n\r\n".data = ['\r', '\n', '\r', '\n'] from rfl]
    simp
  have hno : ∀ c ∈ ("Content-Length: ".data ++ natRepr n) ++ ['\r'],
      c ≠ '\n' := by
    intro c hc
    rcases List.mem_append.mp hc with h | h
    · rcases List.mem_append.mp h with h | h
      · rcases hCL c h with ⟨h1, _⟩ | h1
        · exact h1
        · rw [h1]; decide
      · exact hd2 c h
    · simp at h; rw [h]; decide
  rw [readHeader, hsplit, rhAux_no_newline _ hno, List.nil_append,
    rhAux_newline, if_neg (by rw [hline]; exact hPne)]
  rw [if_pos (by rw [hline, hP]; exact isPrefixOf_append_self _ _)]
  have hdrop : (trimSpace ((("Content-Length: ".data ++ natRepr n) ++ ['\r']) ++
      ['\n'])).drop 15 = ' ' :: natRepr n := by
    rw [hline, hP, show (15 : Nat) = clTag.length from rfl]
    exact List.drop_left _ _
  rw [hdrop, trimSpace_space_cons _ hd1, atoi_natRepr]
  have htail : rhAux ('\r' :: '\n' :: body) [] (n : Int) =
      .ok ((n : Int), body) := by
    rw [show rhAux ('\r' :: '\n' :: body) [] (n : Int) =
        rhAux (['\r'] ++ '\n' :: body) [] (n : Int) from rfl,
      rhAux_no_newline ['\r'] (by decide), List.nil_append, rhAux_newline]
    rw [if_pos (by decide)]
    rw [if_neg (by exact_mod_cast hn)]
  exact htail

/-- Full framing round trip: receiving on a stream whose next bytes are
the frame written for a nonempty payload consumes exactly that frame and
returns the payload verbatim. -/
theorem receiveFrame_sendFrame (data rest : List Char) (cl0 : Int)
    (h : data ≠ []) :
    receiveFrame ⟨cl0, false⟩ (sendFrame data ++ rest) =
      .ok (data, ⟨(data.length : Int), false⟩, rest) := by
  have hn : data.length ≠ 0 := by
    intro hc
    exact h (List.length_eq_zero.mp hc)
  have hframe : sendFrame data ++ rest =
      "Content-Length: ".data ++ natRepr data.length ++ "\r\n\r\n".data ++
        (data ++ rest) := by
    rw [sendFrame]; simp
  rw [receiveFrame]
  simp only [if_neg (show ¬(Transport.mk cl0 false).closed = true from by simp)]
  rw [hframe, readHeader_of_frame data.length hn (data ++ rest) cl0]
  simp only [readContent, Int.toNat_ofNat]
  rw [if_pos (by simp)]
  rw [List.take_left, List.drop_left]

/-- C4 (amended): for every nonempty payload, `SendMessage` writes
exactly the header `Content-Length: N` followed by CRLF CRLF and the `N`
payload bytes verbatim, and a `Receive` on a channel fed exactly those
bytes (whatever the prior `contentLen` state) returns exactly the `N`
payload bytes, leaving the rest of the stream untouched.  The zero-byte
payload is excluded: its frame is rejected by the missing-header check,
see the counterexample. -/
theorem send_receive_framing (data rest : List Char) (cl0 : Int)
    (h : data ≠ []) :
    sendFrame data = "Content-Length: ".data ++ natRepr data.length ++
      "\r\n\r\n".data ++ data
    ∧ receiveFrame ⟨cl0, false⟩ (sendFrame data ++ rest) =
        .ok (data, ⟨(data.length : Int), false⟩, rest) :=
  ⟨rfl, receiveFrame_sendFrame data rest cl0 h⟩

/-- C4 witness: the round trip at the one-byte payload. -/
theorem send_receive_framing_witness :
    (['a'] : List Char) ≠ [] ∧
    (sendFrame ['a'] = "Content-Length: ".data ++
        natRepr (['a'] : List Char).length ++ "\r\n\r\n".data ++ ['a']
     ∧ receiveFrame ⟨0, false⟩ (sendFrame ['a'] ++ []) =
        .ok (['a'], ⟨(((['a'] : List Char).length : Nat) : Int), false⟩, [])) :=
  ⟨by decide, send_receive_framing ['a'] [] 0 (by decide)⟩

/-- C4 counterexample: the frame of the empty payload declares
`Content-Length: 0`, which the receiver cannot distinguish from a missing
header, so `Receive` fails instead of returning the zero-byte payload. -/
theorem send_receive_framing_zero_cex :
    receiveFrame ⟨0, false⟩ (sendFrame []) =
      .error "missing Content-Length header" := rfl

/-- C2 (code bug): on a fresh channel a headerless frame is rejected with
the missing-header error, but after one successful `Receive` of a 2-byte
frame the very same headerless frame is accepted, because the stale
`contentLen` field (never reset between reads) passes the `== 0` check
and two bytes of the body are returned as the payload. -/
theorem receive_missing_header_stale_length :
    receiveFrame ⟨0, false⟩ ("X-Foo: 1\r\n\r\nab".data) =
      .error "missing Content-Length header"
    ∧ receiveFrame ⟨0, false⟩ (sendFrame "ab".data ++ "X-Foo: 1\r\n\r\nxy".data) =
        .ok ("ab".data, ⟨2, false⟩, "X-Foo: 1\r\n\r\nxy".data)
    ∧ receiveFrame ⟨2, false⟩ ("X-Foo: 1\r\n\r\nxy".data) =
        .ok ("xy".data, ⟨2, false⟩, []) :=
  ⟨rfl, rfl, rfl⟩

/-! ## JSON values and message envelopes -/

/-- JSON values as produced by `encoding/json` unmarshalling into
untyped Go values: `null`, booleans, numbers (integral here, the only
kind the claims exercise), strings, arrays and objects (association
lists in document order). -/
inductive JVal where
  | null : JVal
  | bool : Bool → JVal
  | num : Int → JVal
  | str : String → JVal
  | arr : List JVal → JVal
  | obj : List (String × JVal) → JVal

/-- The dynamic type of the `ID any` field of a decoded message, as
discriminated by the type switch in `call`: `num` covers the `float64`
and `int64` cases (both converted to `int64`), `jsonNum` a
`json.Number` together with the result of its `Int64()` parse, and
`unsupported` every other dynamic type. -/
inductive RpcID where
  | num : Int → RpcID
  | jsonNum : Option Int → RpcID
  | unsupported : RpcID
deriving DecidableEq, Repr

/-- Modelled from the spec: the error member of the envelope JSON shape,
`"error": (code + human message)`; the defining Go file is not in the
sources, only its users. -/
structure RpcErrorObj where
  code : Int
  message : String
deriving DecidableEq, Repr

/-- Modelled from the spec: the JSON-RPC envelope
(`jsonrpc`/`id`/`method`/`params`/`result`/`error`), with the fields the
transport and client layers inspect: an optional identifier (absent on
notifications), the method name, the optional raw result (`none` models
an absent or empty `json.RawMessage`) and the optional error object.
The defining Go file is not in the sources, only its users. -/
structure JSONRPCMessage where
  id : Option RpcID
  method : String
  result : Option JVal
  error : Option RpcErrorObj

/-- What one iteration of the read loop inside a `Call` can observe from
`ReceiveMessage`: a decoded message, an I/O failure (stream closed or
broken), or a JSON decode failure.  Exhausting the list models the
30-second receive timeout firing. -/
inductive InEvent where
  | msg : JSONRPCMessage → InEvent
  | ioErr : InEvent
  | decodeErr : InEvent

/-! ## RPC session client (pkg/lsp/client/gopls.go) -/

/-- Client state: the `nextID` counter (an `int64`, hence the wrap), the
`closed` atomic flag and the `initialized` flag of `GoplsClient`. -/
structure GoplsClient where
  nextID : Int
  closed : Bool
  initialized : Bool
deriving DecidableEq, Repr

/-- Two-complement wrap of `atomic.AddInt64` arithmetic at 64 bits. -/
def wrap64 (x : Int) : Int :=
  (x + 2 ^ 63) % 2 ^ 64 - 2 ^ 63

/-- Errors a `call` or `notify` can produce, one constructor per distinct
error return in the source.  `timeout` is the one receive error whose
text contains `"timeout"`; `lspError` carries a response-embedded error
object. -/
inductive CallErr where
  | closed : CallErr
  | notInited : CallErr
  | sendFailed : CallErr
  | timeout : CallErr
  | recvFailed : CallErr
  | lspError : Int → String → CallErr
deriving DecidableEq, Repr

/-- The identifier a received message is correlated under: the type
switch of `call` on `resp.ID`, yielding `none` exactly when the loop
logs and `continue`s (invalid format or unsupported type). -/
def idToInt64 : RpcID → Option Int
  | .num v => some v
  | .jsonNum p => p
  | .unsupported => none

/-- The correlated identifier of a message, `none` for notifications and
for unusable identifier types. -/
def respIdInt (m : JSONRPCMessage) : Option Int :=
  m.id.bind idToInt64

/-- The receive loop of `call` (with the notification-skipping loop of
`ReceiveMessage` inlined): consume events until a response with the
matching identifier arrives; mismatched or unusable identifiers and
notifications are skipped; an I/O or decode failure aborts and marks the
client closed (first component `true`); exhaustion is the receive
timeout, which does not mark the client closed. -/
def callLoop (id : Int) : List InEvent → Bool × Except CallErr JSONRPCMessage
  | [] => (false, .error .timeout)
  | .ioErr :: _ => (true, .error .recvFailed)
  | .decodeErr :: _ => (true, .error .recvFailed)
  | .msg m :: rest =>
    match respIdInt m with
    | none => callLoop id rest
    | some v =>
      if v = id then
        match m.error with
        | some e => (false, .error (.lspError e.code e.message))
        | none => (false, .ok m)
      else callLoop id rest

/-- Result of a `call`: the client state afterwards, the requests
actually written to the channel (identifier and method), and the
outcome. -/
structure CallOut where
  state : GoplsClient
  sent : List (Int × String)
  out : Except CallErr JSONRPCMessage

/-- `GoplsClient.call`: the closed guard, the not-initialized guard
(passing `initialize` and `shutdown` through), identifier allocation by
`atomic.AddInt64(&c.nextID, 1)`, the send (whose failure marks the
client closed), then the receive loop.  `sendOk` models whether
`transport.SendMessage` succeeds; `incoming` the stream of receive
outcomes. -/
def call (c : GoplsClient) (method : String) (sendOk : Bool)
    (incoming : List InEvent) : CallOut :=
  if c.closed then ⟨c, [], .error .closed⟩
  else if method ≠ "initialize" ∧ ¬c.initialized ∧ method ≠ "shutdown" then
    ⟨c, [], .error .notInited⟩
  else
    let id := wrap64 (c.nextID + 1)
    let c1 : GoplsClient := { c with nextID := id }
    if sendOk then
      let r := callLoop id incoming
      ⟨{ c1 with closed := r.1 }, [(id, method)], r.2⟩
    else ⟨{ c1 with closed := true }, [], .error .sendFailed⟩

/-- `GoplsClient.notify`: the closed guard then the send; a send failure
does not change any state. -/
def notifySend (c : GoplsClient) (sendOk : Bool) : Except CallErr Unit :=
  if c.closed then .error .closed
  else if sendOk then .ok () else .error .sendFailed

/-- An event the receive loop of a `Call` waiting for `id` passes over:
a notification, a response with an unusable identifier, or a response
with a different identifier. -/
def skippable (id : Int) : InEvent → Bool
  | .msg m =>
    match respIdInt m with
    | none => true
    | some v => decide (v ≠ id)
  | _ => false

theorem callLoop_skip_append (id : Int) (pre : List InEvent)
    (h : ∀ e ∈ pre, skippable id e = true) (s : List InEvent) :
    callLoop id (pre ++ s) = callLoop id s := by
  induction pre with
  | nil => simp
  | cons e es ih =>
    have he := h e (List.mem_cons_self _ _)
    have hes := fun x hx => h x (List.mem_cons_of_mem _ hx)
    cases e with
    | ioErr => simp [skippable] at he
    | decodeErr => simp [skippable] at he
    | msg m =>
      rw [List.cons_append]
      cases hr : respIdInt m with
      | none =>
        simp only [callLoop, hr]
        exact ih hes
      | some v =>
        have hv : ¬v = id := by simpa [skippable, hr] using he
        simp only [callLoop, hr, if_neg hv]
        exact ih hes

theorem callLoop_all_skippable (id : Int) (l : List InEvent)
    (h : ∀ e ∈ l, skippable id e = true) :
    callLoop id l = (false, .error .timeout) := by
  have := callLoop_skip_append id l h []
  simpa using this

theorem callLoop_ne_notInited (id : Int) :
    ∀ l, (callLoop id l).2 ≠ .error .notInited := by
  intro l
  induction l with
  | nil => simp [callLoop]
  | cons e es ih =>
    cases e with
    | ioErr => simp [callLoop]
    | decodeErr => simp [callLoop]
    | msg m =>
      cases hr : respIdInt m with
      | none =>
        simp only [callLoop, hr]
        exact ih
      | some v =>
        by_cases hv : v = id
        · cases he : m.error with
          | none => simp [callLoop, hr, if_pos hv, he]
          | some e => simp [callLoop, hr, if_pos hv, he]
        · simp only [callLoop, hr, if_neg hv]
          exact ih

/-- Normal form of `call` on a live initialized client. -/
theorem call_ready (c : GoplsClient) (method : String) (sendOk : Bool)
    (incoming : List InEvent) (hc : c.closed = false)
    (hi : c.initialized = true) :
    call c method sendOk incoming =
      if sendOk then
        ⟨⟨wrap64 (c.nextID + 1), (callLoop (wrap64 (c.nextID + 1)) incoming).1,
            true⟩,
          [(wrap64 (c.nextID + 1), method)],
          (callLoop (wrap64 (c.nextID + 1)) incoming).2⟩
      else ⟨⟨wrap64 (c.nextID + 1), true, true⟩, [], .error .sendFailed⟩ := by
  obtain ⟨n, cl, ini⟩ := c
  simp only [GoplsClient.closed] at hc
  simp only [GoplsClient.initialized] at hi
  subst hc hi
  cases sendOk with
  | true => simp [call]
  | false => simp [call]

/-- C1 (amended): a `Call` on a live initialized session that receives no
response bearing its own identifier fails with the timeout error, but
the session is NOT left in the Closed state: the next `Call` on the same
session passes the closed guard, allocates the next identifier and sends
its request (it does not fail with the closed-session error). -/
theorem call_timeout_leaves_session_open (c : GoplsClient)
    (method m2 : String) (incoming : List InEvent)
    (hc : c.closed = false) (hi : c.initialized = true)
    (hskip : ∀ e ∈ incoming, skippable (wrap64 (c.nextID + 1)) e = true) :
    (call c method true incoming).out = .error .timeout
    ∧ (call c method true incoming).state =
        ⟨wrap64 (c.nextID + 1), false, true⟩
    ∧ (call (call c method true incoming).state m2 true []).out ≠
        .error .closed
    ∧ (call (call c method true incoming).state m2 true []).sent =
        [(wrap64 (wrap64 (c.nextID + 1) + 1), m2)] := by
  have h1 : call c method true incoming =
      ⟨⟨wrap64 (c.nextID + 1), false, true⟩,
        [(wrap64 (c.nextID + 1), method)], .error .timeout⟩ := by
    rw [call_ready c method true incoming hc hi, if_pos rfl,
      callLoop_all_skippable _ _ hskip]
  have h2 : call (⟨wrap64 (c.nextID + 1), false, true⟩ : GoplsClient) m2
      true [] =
      ⟨⟨wrap64 (wrap64 (c.nextID + 1) + 1), false, true⟩,
        [(wrap64 (wrap64 (c.nextID + 1) + 1), m2)], .error .timeout⟩ := by
    rw [call_ready _ m2 true [] rfl rfl, if_pos rfl,
      callLoop_all_skippable _ _ (by intro e he; cases he)]
  rw [h1]
  refine ⟨rfl, rfl, ?_, ?_⟩
  · rw [h2]; intro hcon; cases hcon
  · rw [h2]

/-- C1 witness: a concrete fresh initialized client timing out on an
empty response stream. -/
theorem call_timeout_leaves_session_open_witness :
    (call ⟨1, false, true⟩ "textDocument/hover" true []).out =
      .error .timeout
    ∧ (call ⟨1, false, true⟩ "textDocument/hover" true []).state =
        ⟨wrap64 (1 + 1), false, true⟩
    ∧ (call (call ⟨1, false, true⟩ "textDocument/hover" true []).state
        "textDocument/hover" true []).out ≠ .error .closed
    ∧ (call (call ⟨1, false, true⟩ "textDocument/hover" true []).state
        "textDocument/hover" true []).sent =
        [(wrap64 (wrap64 (1 + 1) + 1), "textDocument/hover")] :=
  call_timeout_leaves_session_open ⟨1, false, true⟩ "textDocument/hover"
    "textDocument/hover" [] rfl rfl (fun e he => absurd he (by simp))

/-- C1 counterexample: on a concrete initialized session, a timed-out
`Call` leaves the session with `closed = false`, and the subsequent
`Call` does not fail with the closed-session error — refuting the
claimed transition to the Closed state. -/
theorem call_timeout_closed_state_cex :
    (call ⟨1, false, true⟩ "textDocument/hover" true []).out =
      .error .timeout
    ∧ (call ⟨1, false, true⟩ "textDocument/hover" true []).state.closed =
        false
    ∧ (call (call ⟨1, false, true⟩ "textDocument/hover" true []).state
        "textDocument/hover" true []).out = .error .timeout :=
  ⟨rfl, rfl, rfl⟩

/-- C3: while a `Call` waits for its identifier, any prefix of received
notifications, responses with unusable identifiers, and responses with
other identifiers is drained and discarded without failing the call, and
the call resolves exactly with the first response bearing its own
identifier, leaving the session open. -/
theorem call_correlation (c : GoplsClient) (method : String)
    (pre post : List InEvent) (m : JSONRPCMessage)
    (hc : c.closed = false) (hi : c.initialized = true)
    (hskip : ∀ e ∈ pre, skippable (wrap64 (c.nextID + 1)) e = true)
    (hid : respIdInt m = some (wrap64 (c.nextID + 1)))
    (herr : m.error = none) :
    (call c method true (pre ++ .msg m :: post)).out = .ok m
    ∧ (call c method true (pre ++ .msg m :: post)).state =
        ⟨wrap64 (c.nextID + 1), false, true⟩ := by
  have hm : callLoop (wrap64 (c.nextID + 1)) (pre ++ .msg m :: post) =
      (false, .ok m) := by
    rw [callLoop_skip_append _ pre hskip]
    simp [callLoop, hid, herr]
  rw [call_ready c method true _ hc hi, if_pos rfl, hm]
  exact ⟨rfl, rfl⟩

/-- C3 witness: a notification and a response with a foreign identifier
arrive first and are discarded; the call resolves with the response
bearing its own identifier 2. -/
theorem call_correlation_witness :
    (call ⟨1, false, true⟩ "textDocument/definition" true
        ([.msg ⟨none, "window/logMessage", none, none⟩,
          .msg ⟨some (.num 7), "", none, none⟩] ++
          .msg ⟨some (.num (wrap64 (1 + 1))), "", some (JVal.str "x"), none⟩ ::
          [])).out =
      .ok ⟨some (.num (wrap64 (1 + 1))), "", some (JVal.str "x"), none⟩
    ∧ (call ⟨1, false, true⟩ "textDocument/definition" true
        ([.msg ⟨none, "window/logMessage", none, none⟩,
          .msg ⟨some (.num 7), "", none, none⟩] ++
          .msg ⟨some (.num (wrap64 (1 + 1))), "", some (JVal.str "x"), none⟩ ::
          [])).state = ⟨wrap64 (1 + 1), false, true⟩ :=
  call_correlation ⟨1, false, true⟩ "textDocument/definition"
    [.msg ⟨none, "window/logMessage", none, none⟩,
      .msg ⟨some (.num 7), "", none, none⟩] []
    ⟨some (.num (wrap64 (1 + 1))), "", some (JVal.str "x"), none⟩
    rfl rfl (by decide) rfl rfl

/-- C6: on a live not-yet-initialized client, a `Call` for any method
other than `initialize` and `shutdown` fails immediately with the
not-initialized error, sending nothing and leaving the state untouched,
while `initialize` and `shutdown` are not rejected by this guard. -/
theorem call_not_inited_guard (c : GoplsClient) (method : String)
    (sendOk : Bool) (incoming : List InEvent)
    (hc : c.closed = false) (hi : c.initialized = false)
    (hm1 : method ≠ "initialize") (hm2 : method ≠ "shutdown") :
    call c method sendOk incoming = ⟨c, [], .error .notInited⟩
    ∧ (call c "initialize" sendOk incoming).out ≠ .error .notInited
    ∧ (call c "shutdown" sendOk incoming).out ≠ .error .notInited := by
  refine ⟨?_, ?_, ?_⟩
  · rw [call, if_neg (by rw [hc]; exact Bool.false_ne_true),
      if_pos ⟨hm1, by rw [hi]; exact Bool.false_ne_true, hm2⟩]
  · rw [call, if_neg (by rw [hc]; exact Bool.false_ne_true),
      if_neg (by intro h; exact h.1 rfl)]
    cases sendOk with
    | false => simp
    | true =>
      simp only [if_true]
      exact callLoop_ne_notInited _ _
  · rw [call, if_neg (by rw [hc]; exact Bool.false_ne_true),
      if_neg (by intro h; exact h.2.2 rfl)]
    cases sendOk with
    | false => simp
    | true =>
      simp only [if_true]
      exact callLoop_ne_notInited _ _

/-- C6 witness: a hover request on a fresh client is rejected by the
guard; initialize and shutdown are not. -/
theorem call_not_inited_guard_witness :
    call ⟨1, false, false⟩ "textDocument/hover" true [] =
      ⟨⟨1, false, false⟩, [], .error .notInited⟩
    ∧ (call ⟨1, false, false⟩ "initialize" true []).out ≠ .error .notInited
    ∧ (call ⟨1, false, false⟩ "shutdown" true []).out ≠ .error .notInited :=
  call_not_inited_guard ⟨1, false, false⟩ "textDocument/hover" true []
    rfl rfl (by decide) (by decide)

/-! ## Identifier allocation across successive calls -/

theorem wrap64_id (x : Int) (h1 : -(2 ^ 63) ≤ x) (h2 : x < 2 ^ 63) :
    wrap64 x = x := by
  rw [wrap64, Int.emod_eq_of_lt (by omega) (by omega)]
  omega

/-- The identifiers written to the channel by `k` successive `Call`
invocations on one session, starting from client state `c`; each entry
is the identifier of one request actually sent. -/
def callIdSeq (c : GoplsClient) (method : String) : Nat → List Int
  | 0 => []
  | k + 1 =>
    let r := call c method true []
    r.sent.map Prod.fst ++ callIdSeq r.state method k

theorem callIdSeq_ready (method : String) :
    ∀ (k : Nat) (n : Int), 1 ≤ n → n + k ≤ 2 ^ 63 - 1 →
      callIdSeq ⟨n, false, true⟩ method k =
        (List.range k).map (fun (j : Nat) => n + 1 + (j : Int)) := by
  intro k
  induction k with
  | zero =>
    intro n h1 h2
    simp [callIdSeq]
  | succ k ih =>
    intro n h1 h2
    have hk : (0 : Int) ≤ (k : Int) := Int.natCast_nonneg k
    have hcast : ((k + 1 : Nat) : Int) = (k : Int) + 1 := by push_cast; ring
    have hw : wrap64 (n + 1) = n + 1 := by
      refine wrap64_id _ (by omega) ?_
      rw [hcast] at h2
      omega
    have hcall : call ⟨n, false, true⟩ method true [] =
        ⟨⟨n + 1, false, true⟩, [(n + 1, method)], .error .timeout⟩ := by
      rw [call_ready _ method true [] rfl rfl]
      simp [callLoop, hw]
    simp only [callIdSeq, hcall]
    rw [ih (n + 1) (by omega) (by rw [hcast] at h2; push_cast; omega)]
    simp only [List.map_cons, List.map_nil, List.cons_append, List.nil_append]
    have hfun : ((fun (j : Nat) => n + 1 + (j : Int)) ∘ Nat.succ) =
        (fun (j : Nat) => n + 1 + 1 + (j : Int)) := by
      funext j
      simp only [Function.comp_apply]
      push_cast
      ring
    rw [List.range_succ_eq_map, List.map_cons, List.map_map, hfun]
    simp

/-- C5: within one session started at the bootstrap counter value 1 (set
by `NewGoplsClient`), the identifiers allocated by successive `Call`
invocations form a strictly increasing sequence, are never reused, and
are all strictly greater than the bootstrap value — as long as the
`int64` counter cannot wrap. -/
theorem call_ids_strictly_increasing (method : String) (k : Nat)
    (hk : (k : Int) ≤ 2 ^ 63 - 2) :
    List.Pairwise (· < ·) (callIdSeq ⟨1, false, true⟩ method k)
    ∧ (∀ i ∈ callIdSeq ⟨1, false, true⟩ method k, 1 < i)
    ∧ (callIdSeq ⟨1, false, true⟩ method k).Nodup := by
  rw [callIdSeq_ready method k 1 (le_refl 1) (by omega)]
  have hp : List.Pairwise (· < ·)
      ((List.range k).map (fun (j : Nat) => (1 : Int) + 1 + (j : Int))) := by
    refine List.Pairwise.map _ ?_ (List.pairwise_lt_range k)
    intro a b hab
    have : (a : Int) < (b : Int) := by exact_mod_cast hab
    omega
  refine ⟨hp, ?_, ?_⟩
  · intro i hi
    obtain ⟨j, _, rfl⟩ := List.mem_map.mp hi
    have : (0 : Int) ≤ (j : Int) := Int.natCast_nonneg j
    omega
  · exact hp.imp (fun h => ne_of_lt h)

/-- C5 witness: three successive calls on a freshly created session
allocate the identifiers 2, 3, 4. -/
theorem call_ids_strictly_increasing_witness :
    ((3 : Nat) : Int) ≤ 2 ^ 63 - 2 ∧
    (List.Pairwise (· < ·)
        (callIdSeq ⟨1, false, true⟩ "textDocument/hover" 3)
      ∧ (∀ i ∈ callIdSeq ⟨1, false, true⟩ "textDocument/hover" 3, 1 < i)
      ∧ (callIdSeq ⟨1, false, true⟩ "textDocument/hover" 3).Nodup) :=
  ⟨by decide, call_ids_strictly_increasing "textDocument/hover" 3 (by decide)⟩

/-! ## Initialization handshake (GoplsClient.Initialize) -/

/-- How one attempt of `c.call("initialize", initParams)` ends, abstracted
by the classification `Initialize` applies to the error text: success, an
error whose text contains `"timeout"`, or any other error. -/
inductive AttemptOutcome where
  | ok : AttemptOutcome
  | errTimeout : AttemptOutcome
  | errOther : AttemptOutcome
deriving DecidableEq, Repr

/-- How the attempt loop of `Initialize` ends: a successful attempt, all
attempts timed out, or a non-timeout failure aborted at a given
attempt. -/
inductive LoopExit where
  | success : LoopExit
  | timedOutAll : LoopExit
  | abortedAt : Nat → LoopExit
deriving DecidableEq, Repr

/-- The distinct error returns of `Initialize`. -/
inductive InitErr where
  | alreadyClosed : InitErr
  | aborted : Nat → InitErr
  | afterAttempts : Nat → InitErr
  | notifyFailed : InitErr
deriving DecidableEq, Repr

/-- Observable trace of one `Initialize` run: how many attempts were
made, the sleeps performed between attempts (in milliseconds), the
`initialized` flag afterwards, and the returned value. -/
structure InitTrace where
  attemptsMade : Nat
  sleepsMs : List Nat
  initialized : Bool
  result : Except InitErr Unit
deriving Repr

/-- The `for attempt := 1; attempt <= 3; attempt++` loop of
`Initialize`: break on success; on a non-timeout error return
immediately; on a timeout sleep 500 ms and retry while `attempt < 3`,
otherwise fall out of the loop with the error still set.  `rem` counts
the remaining iterations (`4 - attempt`); the pair of counters is kept
so that the `attempt < 3` test reads as in the source. -/
def initLoop (outcomes : Nat → AttemptOutcome) :
    Nat → Nat → Nat × List Nat × LoopExit
  | _, 0 => (0, [], LoopExit.timedOutAll)
  | attempt, rem + 1 =>
    match outcomes attempt with
    | .ok => (1, [], LoopExit.success)
    | .errOther => (1, [], LoopExit.abortedAt attempt)
    | .errTimeout =>
      if attempt < 3 then
        let r := initLoop outcomes (attempt + 1) rem
        (r.1 + 1, 500 :: r.2.1, r.2.2)
      else (1, [], LoopExit.timedOutAll)

/-- `GoplsClient.Initialize`: the already-initialized and closed guards,
the three-attempt loop, then on success the `initialized` notification
(whose send outcome is `notifyOk`), reverting readiness if it fails. -/
def initModel (ready0 closed0 : Bool) (outcomes : Nat → AttemptOutcome)
    (notifyOk : Bool) : InitTrace :=
  if ready0 then ⟨0, [], true, .ok ()⟩
  else if closed0 then ⟨0, [], false, .error .alreadyClosed⟩
  else
    let r := initLoop outcomes 1 3
    match r.2.2 with
    | .abortedAt k => ⟨r.1, r.2.1, false, .error (.aborted k)⟩
    | .timedOutAll => ⟨r.1, r.2.1, false, .error (.afterAttempts 3)⟩
    | .success =>
      if notifyOk then ⟨r.1, r.2.1, true, .ok ()⟩
      else ⟨r.1, r.2.1, false, .error .notifyFailed⟩

/-- C7: on a live uninitialized client, `Initialize` makes at most 3
attempts; every attempt before the last was a timeout (non-timeout
failures abort immediately); exactly one 500 ms sleep happens between each
pair of consecutive attempts; when all 3 attempts time out the client
stays not-initialized and the error names the 3 attempts; when attempt
`k` succeeds after timeouts, the client becomes ready and the call
succeeds if the `initialized` notification is sent, and readiness is
reverted with an error if it is not. -/
theorem initRetryPolicy (outcomes : Nat → AttemptOutcome) (notifyOk : Bool) :
    (initModel false false outcomes notifyOk).attemptsMade ≤ 3
    ∧ (∀ k, 1 ≤ k → k < (initModel false false outcomes notifyOk).attemptsMade →
        outcomes k = .errTimeout)
    ∧ (initModel false false outcomes notifyOk).sleepsMs =
        List.replicate
          ((initModel false false outcomes notifyOk).attemptsMade - 1) 500
    ∧ ((∀ k, 1 ≤ k → k ≤ 3 → outcomes k = .errTimeout) →
        ((initModel false false outcomes notifyOk).result =
            .error (.afterAttempts 3)
          ∧ (initModel false false outcomes notifyOk).initialized = false
          ∧ (initModel false false outcomes notifyOk).attemptsMade = 3))
    ∧ (∀ k, 1 ≤ k → k ≤ 3 → outcomes k = .errOther →
        (∀ j, 1 ≤ j → j < k → outcomes j = .errTimeout) →
        ((initModel false false outcomes notifyOk).result = .error (.aborted k)
          ∧ (initModel false false outcomes notifyOk).attemptsMade = k
          ∧ (initModel false false outcomes notifyOk).initialized = false))
    ∧ (∀ k, 1 ≤ k → k ≤ 3 → outcomes k = .ok →
        (∀ j, 1 ≤ j → j < k → outcomes j = .errTimeout) →
        ((initModel false false outcomes notifyOk).attemptsMade = k
          ∧ (notifyOk = true →
              (initModel false false outcomes notifyOk).initialized = true
              ∧ (initModel false false outcomes notifyOk).result = .ok ())
          ∧ (notifyOk = false →
              (initModel false false outcomes notifyOk).initialized = false
              ∧ (initModel false false outcomes notifyOk).result =
                  .error .notifyFailed))) := by
  cases h1 : outcomes 1 with
  | ok =>
    have ht : initModel false false outcomes notifyOk =
        if notifyOk then ⟨1, [], true, .ok ()⟩
        else ⟨1, [], false, .error .notifyFailed⟩ := by
      simp [initModel, initLoop, h1]
    refine ⟨?_, ?_, ?_, ?_, ?_, ?_⟩
    · cases notifyOk <;> simp [ht]
    · intro k hk1 hk2
      rw [ht] at hk2
      cases notifyOk <;> simp at hk2 <;> omega
    · cases notifyOk <;> simp [ht]
    · intro hall
      have := hall 1 (by omega) (by omega)
      rw [h1] at this
      cases this
    · intro k hk1 hk3 hko hprev
      interval_cases k
      · rw [h1] at hko; cases hko
      · have := hprev 1 (by omega) (by omega); rw [h1] at this; cases this
      · have := hprev 1 (by omega) (by omega); rw [h1] at this; cases this
    · intro k hk1 hk3 hko hprev
      interval_cases k
      · cases notifyOk with
        | true =>
          simp at ht
          exact ⟨by simp [ht], fun _ => ⟨by simp [ht], by simp [ht]⟩,
            fun hn => absurd hn (by decide)⟩
        | false =>
          simp at ht
          exact ⟨by simp [ht], fun hn => absurd hn (by decide),
            fun _ => ⟨by simp [ht], by simp [ht]⟩⟩
      · have := hprev 1 (by omega) (by omega); rw [h1] at this; cases this
      · have := hprev 1 (by omega) (by omega); rw [h1] at this; cases this
  | errOther =>
    have ht : initModel false false outcomes notifyOk =
        ⟨1, [], false, .error (.aborted 1)⟩ := by
      simp [initModel, initLoop, h1]
    refine ⟨by simp [ht], ?_, by simp [ht], ?_, ?_, ?_⟩
    · intro k hk1 hk2
      rw [ht] at hk2
      simp at hk2
      omega
    · intro hall
      have := hall 1 (by omega) (by omega)
      rw [h1] at this
      cases this
    · intro k hk1 hk3 hko hprev
      interval_cases k
      · exact ⟨by simp [ht], by simp [ht], by simp [ht]⟩
      · have := hprev 1 (by omega) (by omega); rw [h1] at this; cases this
      · have := hprev 1 (by omega) (by omega); rw [h1] at this; cases this
    · intro k hk1 hk3 hko hprev
      interval_cases k
      · rw [h1] at hko; cases hko
      · have := hprev 1 (by omega) (by omega); rw [h1] at this; cases this
      · have := hprev 1 (by omega) (by omega); rw [h1] at this; cases this
  | errTimeout =>
    cases h2 : outcomes 2 with
    | ok =>
      have ht : initModel false false outcomes notifyOk =
          if notifyOk then ⟨2, [500], true, .ok ()⟩
          else ⟨2, [500], false, .error .notifyFailed⟩ := by
        simp [initModel, initLoop, h1, h2]
      refine ⟨?_, ?_, ?_, ?_, ?_, ?_⟩
      · cases notifyOk <;> simp [ht]
      · intro k hk1 hk2
        rw [ht] at hk2
        cases notifyOk <;> simp at hk2 <;>
          (have : k = 1 := by omega) <;> rw [this] <;> exact h1
      · cases notifyOk <;> simp [ht]
      · intro hall
        have := hall 2 (by omega) (by omega)
        rw [h2] at this
        cases this
      · intro k hk1 hk3 hko hprev
        interval_cases k
        · rw [h1] at hko; cases hko
        · rw [h2] at hko; cases hko
        · have := hprev 2 (by omega) (by omega); rw [h2] at this; cases this
      · intro k hk1 hk3 hko hprev
        interval_cases k
        · rw [h1] at hko; cases hko
        · cases notifyOk with
          | true =>
            simp at ht
            exact ⟨by simp [ht], fun _ => ⟨by simp [ht], by simp [ht]⟩,
              fun hn => absurd hn (by decide)⟩
          | false =>
            simp at ht
            exact ⟨by simp [ht], fun hn => absurd hn (by decide),
              fun _ => ⟨by simp [ht], by simp [ht]⟩⟩
        · have := hprev 2 (by omega) (by omega); rw [h2] at this; cases this
    | errOther =>
      have ht : initModel false false outcomes notifyOk =
          ⟨2, [500], false, .error (.aborted 2)⟩ := by
        simp [initModel, initLoop, h1, h2]
      refine ⟨by simp [ht], ?_, by simp [ht], ?_, ?_, ?_⟩
      · intro k hk1 hk2
        rw [ht] at hk2
        simp at hk2
        have : k = 1 := by omega
        rw [this]
        exact h1
      · intro hall
        have := hall 2 (by omega) (by omega)
        rw [h2] at this
        cases this
      · intro k hk1 hk3 hko hprev
        interval_cases k
        · rw [h1] at hko; cases hko
        · exact ⟨by simp [ht], by simp [ht], by simp [ht]⟩
        · have := hprev 2 (by omega) (by omega); rw [h2] at this; cases this
      · intro k hk1 hk3 hko hprev
        interval_cases k
        · rw [h1] at hko; cases hko
        · rw [h2] at hko; cases hko
        · have := hprev 2 (by omega) (by omega); rw [h2] at this; cases this
    | errTimeout =>
      cases h3 : outcomes 3 with
      | ok =>
        have ht : initModel false false outcomes notifyOk =
            if notifyOk then ⟨3, [500, 500], true, .ok ()⟩
            else ⟨3, [500, 500], false, .error .notifyFailed⟩ := by
          simp [initModel, initLoop, h1, h2, h3]
        refine ⟨?_, ?_, ?_, ?_, ?_, ?_⟩
        · cases notifyOk <;> simp [ht]
        · intro k hk1 hk2
          rw [ht] at hk2
          cases notifyOk <;> simp at hk2 <;> interval_cases k <;>
            first
            | exact h1
            | exact h2
        · cases notifyOk <;> simp [ht]
        · intro hall
          have := hall 3 (by omega) (by omega)
          rw [h3] at this
          cases this
        · intro k hk1 hk3 hko hprev
          interval_cases k
          · rw [h1] at hko; cases hko
          · rw [h2] at hko; cases hko
          · rw [h3] at hko; cases hko
        · intro k hk1 hk3 hko hprev
          interval_cases k
          · rw [h1] at hko; cases hko
          · rw [h2] at hko; cases hko
          · cases notifyOk with
            | true =>
              simp at ht
              exact ⟨by simp [ht], fun _ => ⟨by simp [ht], by simp [ht]⟩,
                fun hn => absurd hn (by decide)⟩
            | false =>
              simp at ht
              exact ⟨by simp [ht], fun hn => absurd hn (by decide),
                fun _ => ⟨by simp [ht], by simp [ht]⟩⟩
      | errOther =>
        have ht : initModel false false outcomes notifyOk =
            ⟨3, [500, 500], false, .error (.aborted 3)⟩ := by
          simp [initModel, initLoop, h1, h2, h3]
        refine ⟨by simp [ht], ?_, by simp [ht], ?_, ?_, ?_⟩
        · intro k hk1 hk2
          rw [ht] at hk2
          simp at hk2
          interval_cases k
          · exact h1
          · exact h2
        · intro hall
          have := hall 3 (by omega) (by omega)
          rw [h3] at this
          cases this
        · intro k hk1 hk3 hko hprev
          interval_cases k
          · rw [h1] at hko; cases hko
          · rw [h2] at hko; cases hko
          · exact ⟨by simp [ht], by simp [ht], by simp [ht]⟩
        · intro k hk1 hk3 hko hprev
          interval_cases k
          · rw [h1] at hko; cases hko
          · rw [h2] at hko; cases hko
          · rw [h3] at hko; cases hko
      | errTimeout =>
        have ht : initModel false false outcomes notifyOk =
            ⟨3, [500, 500], false, .error (.afterAttempts 3)⟩ := by
          simp [initModel, initLoop, h1, h2, h3]
        refine ⟨by simp [ht], ?_, by simp [ht], ?_, ?_, ?_⟩
        · intro k hk1 hk2
          rw [ht] at hk2
          simp at hk2
          interval_cases k
          · exact h1
          · exact h2
        · intro hall
          exact ⟨by simp [ht], by simp [ht], by simp [ht]⟩
        · intro k hk1 hk3 hko hprev
          interval_cases k
          · rw [h1] at hko; cases hko
          · rw [h2] at hko; cases hko
          · rw [h3] at hko; cases hko
        · intro k hk1 hk3 hko hprev
          interval_cases k
          · rw [h1] at hko; cases hko
          · rw [h2] at hko; cases hko
          · rw [h3] at hko; cases hko

/-- C7 witness: all three attempts time out; the client ends
not-initialized with the error naming 3 attempts, after 2 retries with
500 ms sleeps. -/
theorem initRetryPolicy_witness :
    (initModel false false (fun _ => AttemptOutcome.errTimeout) true).result =
      .error (.afterAttempts 3)
    ∧ (initModel false false (fun _ => AttemptOutcome.errTimeout)
        true).initialized = false
    ∧ (initModel false false (fun _ => AttemptOutcome.errTimeout)
        true).attemptsMade = 3 :=
  (initRetryPolicy (fun _ => AttemptOutcome.errTimeout) true).2.2.2.1
    (fun _ _ _ => rfl)

/-! ## Hover result decoding (GoplsClient.GetHover) -/

/-- Lookup of a key in a decoded JSON object (`result["contents"]` on a
Go `map[string]any`; claim inputs carry no duplicate keys, so
first-match lookup is faithful). -/
def jLookup (k : String) : List (String × JVal) → Option JVal
  | [] => none
  | (k', v) :: rest => if k' = k then some v else jLookup k rest

/-- Re-serialization of a decoded value, as `json.Marshal` does in the
fallback branch of `GetHover` (string escaping and the sorted map order
of Go maps are immaterial to every branch the claims exercise). -/
def jserialize : JVal → String
  | .null => "null"
  | .bool b => if b then "true" else "false"
  | .num n => toString n
  | .str s => "\"" ++ s ++ "\""
  | .arr xs =>
    "[" ++ String.intercalate "," (xs.attach.map (fun x => jserialize x.1)) ++
      "]"
  | .obj fs =>
    "\x7b" ++ String.intercalate ","
      (fs.attach.map (fun f => "\"" ++ f.1.1 ++ "\":" ++ jserialize f.1.2)) ++
      "\x7d"
termination_by v => sizeOf v
decreasing_by
  · rcases x with ⟨xv, hx⟩
    have := List.sizeOf_lt_of_mem hx
    simp_wf
    omega
  · rcases f with ⟨⟨k, v⟩, hf⟩
    have := List.sizeOf_lt_of_mem hf
    simp_wf
    simp at this
    omega

/-- The error text of `GetHover` for an absent, null or empty result. -/
def noHoverMsg : String := "no hover information available for this position"

/-- The fallback tail of `GetHover`: marshal the whole decoded map and
return it, except for the (unreachable) literal empty-object check. -/
def hoverFallback (fields : List (String × JVal)) : Except String String :=
  if jserialize (.obj fields) = "\x7b\x7d" then .error noHoverMsg
  else .ok (jserialize (.obj fields))

/-- The result handling of `GetHover` (gopls.go lines 478-529), given the
decoded `result` member of the response: `none` models an absent or
zero-length raw result, `some .null` the literal `null`.  The branches
mirror the source: empty decoded map; `contents` as an object carrying
`value` (with the redundant markdown-kind re-check); `contents` as a
plain string; `contents` as a nonempty array whose first element is an
object carrying `value`; otherwise the marshalling fallback. -/
def hoverFromResult (r? : Option JVal) : Except String String :=
  match r? with
  | none => .error noHoverMsg
  | some .null => .error noHoverMsg
  | some v =>
    match v with
    | .obj fields =>
      if fields.length = 0 then .error noHoverMsg
      else
        match jLookup "contents" fields with
        | some (.obj cf) =>
          match jLookup "value" cf with
          | some (.str s) => .ok s
          | _ =>
            match jLookup "kind" cf with
            | some (.str kind) =>
              if kind = "markdown" then
                match jLookup "value" cf with
                | some (.str s) => .ok s
                | _ => hoverFallback fields
              else hoverFallback fields
            | _ => hoverFallback fields
        | some (.str s) => .ok s
        | some (.arr (first :: _)) =>
          match first with
          | .obj f1 =>
            match jLookup "value" f1 with
            | some (.str s) => .ok s
            | _ => hoverFallback fields
          | _ => hoverFallback fields
        | _ => hoverFallback fields
    | _ => .error "failed to decode hover result"

/-- C8: `GetHover` fails with the no-hover-info error when the response
result is absent, JSON null, or decodes to the empty object, and returns
the extracted text "docs" for each of the three shapes: contents as an
object with a value member, contents as a plain string, and contents as
an array whose first element is an object with a value member. -/
theorem hover_result_shapes :
    hoverFromResult none = .error noHoverMsg
    ∧ hoverFromResult (some JVal.null) = .error noHoverMsg
    ∧ hoverFromResult (some (JVal.obj [])) = .error noHoverMsg
    ∧ hoverFromResult
        (some (JVal.obj
          [("contents", JVal.obj [("value", JVal.str "docs")])])) = .ok "docs"
    ∧ hoverFromResult (some (JVal.obj [("contents", JVal.str "docs")])) =
        .ok "docs"
    ∧ hoverFromResult
        (some (JVal.obj
          [("contents", JVal.arr [JVal.obj [("value", JVal.str "docs")]])])) =
        .ok "docs" :=
  ⟨rfl, rfl, rfl, rfl, rfl, rfl⟩

/-! ## Diagnostics and document-open (GetDiagnostics / DidOpen) -/

/-- A zero-based position, pkg/lsp/protocol/types.go. -/
structure Position where
  line : Int
  character : Int
deriving DecidableEq, Repr

/-- A range of positions (`endPos` renders the `End` field). -/
structure Range where
  start : Position
  endPos : Position
deriving DecidableEq, Repr

/-- A diagnostic, pkg/lsp/protocol/types.go (severity 1-4, optional code
and source rendered as possibly empty strings as in Go). -/
structure Diagnostic where
  range : Range
  severity : Int
  code : String
  source : String
  message : String
deriving DecidableEq, Repr

/-- The textDocument/didOpen notification payload built by `DidOpen`:
the version is always the constant 1. -/
structure DidOpenNotif where
  uri : String
  languageId : String
  version : Nat
  text : String
deriving DecidableEq, Repr

/-- Go `strings.TrimPrefix`. -/
def trimPrefixStr (s pre : String) : String :=
  if pre.data.isPrefixOf s.data then String.mk (s.data.drop pre.data.length)
  else s

/-- `GoplsClient.DidOpen` on a non-Windows host: when no text is
supplied, read the file named by the URI without its `file://` prefix
from disk (`fs` is the disk oracle; an unreadable file degrades to the
empty text), then send the didOpen notification with version 1.
Returns the outcome and the notifications actually sent. -/
def didOpen (c : GoplsClient) (sendOk : Bool) (uri languageId text : String)
    (fs : String → Option String) : Except CallErr Unit × List DidOpenNotif :=
  let text1 := if text = "" then
      (match fs (trimPrefixStr uri "file://") with
       | some content => content
       | none => "")
    else text
  match notifySend c sendOk with
  | .ok _ => (.ok (), [⟨uri, languageId, 1, text1⟩])
  | .error e => (.error e, [])

/-- `GoplsClient.GetDiagnostics`: open the document (language `go`, no
supplied text) and return the literal empty diagnostics slice; no
response from the server is read at all. -/
def getDiagnostics (c : GoplsClient) (sendOk : Bool) (uri : String)
    (fs : String → Option String) :
    Except CallErr (List Diagnostic) × List DidOpenNotif :=
  match didOpen c sendOk uri "go" "" fs with
  | (.error e, sent) => (.error e, sent)
  | (.ok _, sent) => (.ok [], sent)

/-- C9 (amended): a successful `GetDiagnostics` guarantees exactly that
the document-open notification was sent, with the text read from disk;
it never returns server-produced diagnostics — the not-yet-delivered
diagnostics are represented as a plain empty list under a success
status (not as an error, but also not as any explicit pending/async
marker: the return type carries none). -/
theorem getDiagnostics_sends_open_returns_empty (c : GoplsClient)
    (uri : String) (fs : String → Option String) (hc : c.closed = false) :
    getDiagnostics c true uri fs =
      (.ok ([] : List Diagnostic),
        [⟨uri, "go", 1,
          match fs (trimPrefixStr uri "file://") with
          | some content => content
          | none => ""⟩])
    ∧ (∀ (sendOk : Bool) (d : List Diagnostic),
        (getDiagnostics c sendOk uri fs).1 = .ok d → d = []) := by
  constructor
  · rw [getDiagnostics, didOpen]
    rw [notifySend, if_neg (by rw [hc]; exact Bool.false_ne_true), if_pos rfl]
    rfl
  · intro sendOk d hd
    rw [getDiagnostics] at hd
    cases hopen : (didOpen c sendOk uri "go" "" fs) with
    | mk res sent =>
      cases res with
      | error e => rw [hopen] at hd; cases hd
      | ok u => rw [hopen] at hd; cases hd; rfl

/-- C9 witness: a concrete open succeeds and yields the empty list plus
the single didOpen notification carrying the on-disk text. -/
theorem getDiagnostics_sends_open_returns_empty_witness :
    getDiagnostics ⟨1, false, true⟩ true "file:///a.go"
        (fun _ => some "package a") =
      (.ok ([] : List Diagnostic),
        [⟨"file:///a.go", "go", 1,
          match (fun (_ : String) => some "package a")
              (trimPrefixStr "file:///a.go" "file://") with
          | some content => content
          | none => ""⟩])
    ∧ (∀ (sendOk : Bool) (d : List Diagnostic),
        (getDiagnostics ⟨1, false, true⟩ sendOk "file:///a.go"
          (fun _ => some "package a")).1 = .ok d → d = []) :=
  getDiagnostics_sends_open_returns_empty ⟨1, false, true⟩ "file:///a.go"
    (fun _ => some "package a") rfl

/-- C9 counterexample: the success value is the plain empty diagnostics
list — the same value that "no problems found" would denote — and
nothing else, so no explicit pending/async status is communicated to the
caller. -/
theorem getDiagnostics_no_pending_status_cex :
    getDiagnostics ⟨1, false, true⟩ true "file:///a.go"
        (fun _ => some "package a") =
      (.ok ([] : List Diagnostic), [⟨"file:///a.go", "go", 1, "package a"⟩]) :=
  rfl

/-! ## Close (GoplsClient.Close) -/

/-- The error slots collected by `Close`: a failed shutdown call, a
failed exit notification, a failed process kill. -/
inductive CloseErr where
  | duringShutdown : CallErr → CloseErr
  | sendingExit : CallErr → CloseErr
  | killing : CloseErr
deriving DecidableEq, Repr

/-- `GoplsClient.Close`: the compare-and-set guard (returning nil and
touching nothing when already closed), then — with `closed` already set —
the shutdown call and the exit notification if initialized, collecting
their errors, then the unconditional process kill.  The middle component
records whether the kill was attempted; the last is the collected error
list (`Close` returns nil exactly when it is empty). -/
def closeModel (c : GoplsClient) (sendOk : Bool) (incoming : List InEvent)
    (killOk : Bool) : GoplsClient × Bool × List CloseErr :=
  if c.closed then (c, false, [])
  else
    let c1 : GoplsClient := { c with closed := true }
    let p :=
      if c1.initialized then
        let r := call c1 "shutdown" sendOk incoming
        let e1 : List CloseErr :=
          match r.out with
          | .ok _ => []
          | .error e => [.duringShutdown e]
        let e2 : List CloseErr :=
          match notifySend r.state sendOk with
          | .ok _ => []
          | .error e => [.sendingExit e]
        ({ r.state with initialized := false }, e1 ++ e2)
      else (c1, ([] : List CloseErr))
    (p.1, true, p.2 ++ (if killOk then [] else [.killing]))

/-- C10: closing an initialized live client always returns a non-empty
error collection while still killing the subprocess: the compare-and-set
marks the client closed before the shutdown call and the exit
notification run, so both fail with the closed-client error and are
collected; graceful shutdown therefore never succeeds. -/
theorem close_initialized_never_graceful (c : GoplsClient) (sendOk : Bool)
    (incoming : List InEvent) (killOk : Bool)
    (hc : c.closed = false) (hi : c.initialized = true) :
    closeModel c sendOk incoming killOk =
      (⟨c.nextID, true, false⟩, true,
        [.duringShutdown .closed, .sendingExit .closed] ++
          (if killOk then [] else [.killing]))
    ∧ (closeModel c sendOk incoming killOk).2.2 ≠ [] := by
  obtain ⟨n, cl, ini⟩ := c
  simp only [GoplsClient.closed] at hc
  simp only [GoplsClient.initialized] at hi
  subst hc hi
  constructor
  · simp [closeModel, call, notifySend]
  · have h1 : closeModel ⟨n, false, true⟩ sendOk incoming killOk =
        (⟨n, true, false⟩, true,
          [.duringShutdown .closed, .sendingExit .closed] ++
            (if killOk then [] else [.killing])) := by
      simp [closeModel, call, notifySend]
    rw [h1]
    cases killOk <;> simp

/-- C10 witness: closing a concrete initialized client collects the two
closed-client errors and still reports the kill as attempted. -/
theorem close_initialized_never_graceful_witness :
    closeModel ⟨5, false, true⟩ true [] true =
      (⟨5, true, false⟩, true,
        [.duringShutdown .closed, .sendingExit .closed] ++
          (if true then [] else [.killing]))
    ∧ (closeModel ⟨5, false, true⟩ true [] true).2.2 ≠ [] :=
  close_initialized_never_graceful ⟨5, false, true⟩ true [] true rfl rfl

end McpGopls
